import Mathlib

/-!
# Verification of the CharLS image round-trip test harness

Shallow embedding of `src/main.cpp` from `malaterre/charls-image-test`:
byte buffers are `List Nat`, the uint16 view of a byte buffer is a
`List (Nat × Nat)` of byte pairs (native-endian pair of bytes per sample),
and the external CharLS codec is an abstract `Codec` record.
-/

namespace CharlsImageTest

/-! ## uint16 view of a byte buffer

`main.cpp` reinterprets a `vector<byte>` as `uint16_t*` when
`bits_per_sample > 8`.  We model the reinterpretation as grouping the
byte list into consecutive pairs. -/

/-- The uint16 view of a byte buffer: consecutive bytes are paired.
(A trailing odd byte is unaddressable through the `uint16_t*` view.) -/
def toSamples16 : List Nat → List (Nat × Nat)
  | [] => []
  | [_] => []
  | a :: b :: rest => (a, b) :: toSamples16 rest

/-- Back from the uint16 view to the byte buffer. -/
def fromSamples16 : List (Nat × Nat) → List Nat
  | [] => []
  | p :: rest => p.1 :: p.2 :: fromSamples16 rest

/-! ## Layout Transform (`triplet_to_planar`, main.cpp lines 32-60)

The C++ function runs the same index pattern over byte samples
(`bits_per_sample <= 8`) or uint16 samples (`bits_per_sample > 8`):
for each pixel `i` it writes the work buffer at `i`, `i + samples_per_plane`
and `i + 2 * samples_per_plane` from source samples `i*3`, `i*3+1`, `i*3+2`.
`planar_step`/`planar_pass` are that loop, generic over the sample type. -/

/-- One iteration of the `triplet_to_planar` loop: the three writes
performed for pixel index `i` (out-of-range reads, which are undefined
behaviour in the C++ and never happen on valid inputs, yield `dflt`). -/
def planar_step {α : Type} (src : List α) (dflt : α) (samples_per_plane : Nat)
    (wb : List α) (i : Nat) : List α :=
  ((wb.set i (src.getD (i * 3) dflt)).set
      (i + 1 * samples_per_plane) (src.getD (i * 3 + 1) dflt)).set
    (i + 2 * samples_per_plane) (src.getD (i * 3 + 2) dflt)

/-- The full `triplet_to_planar` loop: `for (size_t i{}; i != samples_per_plane; ++i)`. -/
def planar_pass {α : Type} (src : List α) (dflt : α) (samples_per_plane : Nat)
    (wb : List α) : List α :=
  (List.range samples_per_plane).foldl (planar_step src dflt samples_per_plane) wb

/-- `triplet_to_planar` (main.cpp lines 32-60): allocates a zeroed work
buffer of the same byte size, runs the copy loop over uint16 samples when
`bits_per_sample > 8` and over bytes otherwise, and replaces the buffer
with the work buffer (the C++ `swap`). -/
def triplet_to_planar (buffer : List Nat) (width height : Nat)
    (bits_per_sample : Nat) : List Nat :=
  let samples_per_plane := width * height
  if 8 < bits_per_sample then
    let source_buffer16 := toSamples16 buffer
    let work_buffer16 := toSamples16 (List.replicate buffer.length 0)
    fromSamples16 (planar_pass source_buffer16 (0, 0) samples_per_plane work_buffer16)
  else
    planar_pass buffer 0 samples_per_plane (List.replicate buffer.length 0)

/-! ## Inverse regrouping (not in the source)

`Modelled from the spec:` the source repository has no inverse transform;
the spec's bijection property speaks of "regrouping planar back to
sample-interleaved".  `planar_to_triplet` reads, for each pixel `i`, the
samples at planar offsets `i`, `i + plane`, `i + 2*plane` and emits them
consecutively, over the same sample unit as `triplet_to_planar`. -/

/-- One regrouped pixel: the triplet for pixel `i` read from a planar buffer. -/
def regroup_pixel {α : Type} (src : List α) (dflt : α) (samples_per_plane i : Nat) :
    List α :=
  [src.getD i dflt, src.getD (i + 1 * samples_per_plane) dflt,
    src.getD (i + 2 * samples_per_plane) dflt]

/-- Modelled from the spec: regroup a planar sample buffer back to
sample-interleaved order. -/
def planar_to_triplet_pass {α : Type} (src : List α) (dflt : α)
    (samples_per_plane : Nat) : List α :=
  ((List.range samples_per_plane).map (regroup_pixel src dflt samples_per_plane)).flatten

/-- Modelled from the spec: the inverse Layout Transform on byte buffers,
using 2-byte sample units when `bits_per_sample > 8` and bytes otherwise. -/
def planar_to_triplet (buffer : List Nat) (width height : Nat)
    (bits_per_sample : Nat) : List Nat :=
  let samples_per_plane := width * height
  if 8 < bits_per_sample then
    fromSamples16 (planar_to_triplet_pass (toSamples16 buffer) (0, 0) samples_per_plane)
  else
    planar_to_triplet_pass buffer 0 samples_per_plane

/-- The sample (as the list of its bytes) at sample offset `idx` of a byte
buffer, in the sample unit selected by `bits_per_sample`: 2 bytes when
`bits_per_sample > 8`, 1 byte otherwise. -/
def sample_at (buffer : List Nat) (bits_per_sample : Nat) (idx : Nat) : List Nat :=
  if 8 < bits_per_sample then ((buffer.drop (2 * idx)).take 2)
  else ((buffer.drop idx).take 1)

/-! ## Interleave modes and the anymap reference file -/

/-- `charls::interleave_mode`. -/
inductive InterleaveMode : Type
  | none
  | line
  | sample
deriving DecidableEq, Repr

/-- A loaded `portable_anymap_file`: frame metadata plus the flat,
sample-interleaved byte buffer (`image_data`). -/
structure AnymapFile : Type where
  width : Nat
  height : Nat
  bits_per_sample : Nat
  component_count : Nat
  image_data : List Nat
deriving DecidableEq, Repr

/-- `read_anymap_reference_file` (main.cpp lines 63-73): load the file and
apply `triplet_to_planar` exactly when the requested interleave mode is
`none` and the file has 3 components.  File parsing is external; `f` is the
already-parsed file content. -/
def read_anymap_reference_file (f : AnymapFile) (mode : InterleaveMode) : AnymapFile :=
  if mode = InterleaveMode.none ∧ f.component_count = 3 then
    { f with image_data :=
        triplet_to_planar f.image_data f.width f.height f.bits_per_sample }
  else f

/-! ## Round-trip validator (`test_by_decoding`, main.cpp lines 76-105) -/

/-- Why a validation failed: the two `puts` diagnostics of `test_by_decoding`. -/
inductive FailureReason : Type
  | size_mismatch
  | value_mismatch
deriving DecidableEq, Repr

/-- Validation outcome: the `bool` result of `test_by_decoding` enriched
with the diagnostic reason it prints on failure. -/
inductive Outcome : Type
  | passed
  | failed (reason : FailureReason)
deriving DecidableEq, Repr

/-- The external CharLS codec (`jpegls_encoder` / `jpegls_decoder`) as an
abstract capability: encoding depends on the frame metadata, the interleave
mode and the source buffer; decoding and the near-lossless header field
depend on the encoded bytes. -/
structure Codec : Type where
  encode : AnymapFile → InterleaveMode → List Nat → List Nat
  decode : List Nat → List Nat
  near_lossless : List Nat → Nat

/-- The byte-comparison loop of `test_by_decoding`
(`for (size_t i{}; i < original_source.size(); ++i)`); it is entered only
once the two buffers have equal size. -/
def compare_bytes : List Nat → List Nat → Bool
  | d :: ds, o :: os => if d ≠ o then false else compare_bytes ds os
  | _, _ => true

/-- `test_by_decoding` (main.cpp lines 76-105): decode, fail on a size
mismatch before looking at any byte, then compare byte-for-byte only when
the stream's near-lossless header field is 0. -/
def test_by_decoding (codec : Codec) (encoded_source original_source : List Nat) :
    Outcome :=
  let decoded := codec.decode encoded_source
  if decoded.length ≠ original_source.length then
    Outcome.failed FailureReason.size_mismatch
  else if codec.near_lossless encoded_source = 0 then
    if compare_bytes decoded original_source then Outcome.passed
    else Outcome.failed FailureReason.value_mismatch
  else Outcome.passed

/-! ## Output filenames (std::filesystem::path stem / replace_extension)

We model the filename component of a path as its character list.
`split_extension` follows the `std::filesystem::path` rules: the extension
starts at the last dot, except that a dot in the first position (dotfiles)
is not an extension start, and `.` and `..` have no extension. -/

/-- Split a filename at its last dot (the dot goes with the extension).
Used for positions after the first character, where every dot counts. -/
def split_ext_core : List Char → List Char × List Char
  | [] => ([], [])
  | c :: rest =>
    if '.' ∈ rest then
      let p := split_ext_core rest
      (c :: p.1, p.2)
    else if c = '.' then ([], c :: rest)
    else (c :: rest, [])

/-- `std::filesystem::path` stem/extension split of a filename. -/
def split_extension (cs : List Char) : List Char × List Char :=
  if cs = ['.'] ∨ cs = ['.', '.'] then (cs, [])
  else
    match cs with
    | [] => ([], [])
    | c :: rest =>
      if '.' ∈ rest then
        let p := split_ext_core rest
        (c :: p.1, p.2)
      else (c :: rest, [])

/-- `path::stem()` of a filename. -/
def fsStem (s : String) : String := String.mk (split_extension s.toList).1

/-- `path::extension()` of a filename. -/
def fsExtension (s : String) : String := String.mk (split_extension s.toList).2

/-- `path::replace_extension(repl)`: drop the extension, append `repl`. -/
def replace_extension (s repl : String) : String :=
  String.mk (split_extension s.toList).1 ++ repl

/-- `interleave_mode_to_string` (main.cpp lines 107-123).  The C++ switch
is exhaustive over the three enumerators; the `assert(false); return "";`
fallback after it is only reachable for values outside the enumeration,
which the Lean enumeration type cannot represent. -/
def interleave_mode_to_string : InterleaveMode → String
  | InterleaveMode.none => "none"
  | InterleaveMode.line => "line"
  | InterleaveMode.sample => "sample"

/-- `generate_output_filename` (main.cpp lines 125-132): replace the
filename with `stem + "-" + mode`, then replace the extension of that new
name with `.jls`.  We model the filename component; the directory part is
untouched by both `replace_filename` and `replace_extension`. -/
def generate_output_filename (source_filename : String) (mode : InterleaveMode) :
    String :=
  let output_filename := fsStem source_filename ++ "-" ++ interleave_mode_to_string mode
  replace_extension output_filename ".jls"

/-! ## Single-mode and multi-mode test runners -/

/-- What one `check_file` call (main.cpp lines 134-167) does, with its
observable intermediate data: the buffer handed to the encoder, the buffer
handed to `test_by_decoding` as ground truth, the encoded bytes, the name
of the `.jls` file written (with `ofstream::trunc`), and the returned
pass/fail result. -/
structure CheckFileRun : Type where
  encoder_input : List Nat
  ground_truth : List Nat
  encoded : List Nat
  output_filename : String
  result : Bool
deriving DecidableEq, Repr

/-- `check_file` (main.cpp lines 134-167): load (and maybe planar-transform)
the reference file, encode its `image_data`, write the bitstream to
`generate_output_filename`, and validate with `test_by_decoding` against
that same `reference_file.image_data()`. -/
def check_file (codec : Codec) (source_filename : String) (f : AnymapFile)
    (mode : InterleaveMode) : CheckFileRun :=
  let reference_file := read_anymap_reference_file f mode
  let encoded := codec.encode reference_file mode reference_file.image_data
  let outcome := test_by_decoding codec encoded reference_file.image_data
  { encoder_input := reference_file.image_data
    ground_truth := reference_file.image_data
    encoded := encoded
    output_filename := generate_output_filename source_filename mode
    result := decide (outcome = Outcome.passed) }

/-- `check_color_file` (main.cpp lines 169-180): run `check_file` for modes
`none`, `line`, `sample` in that order, returning the first failing result
without running later modes.  The second component records which modes were
attempted, in invocation order. -/
def check_color_file (codec : Codec) (source_filename : String) (f : AnymapFile) :
    Bool × List InterleaveMode :=
  let r1 := (check_file codec source_filename f InterleaveMode.none).result
  if ¬r1 then (r1, [InterleaveMode.none])
  else
    let r2 := (check_file codec source_filename f InterleaveMode.line).result
    if ¬r2 then (r2, [InterleaveMode.none, InterleaveMode.line])
    else
      ((check_file codec source_filename f InterleaveMode.sample).result,
        [InterleaveMode.none, InterleaveMode.line, InterleaveMode.sample])

/-! ## The program entry point (`main`, main.cpp lines 184-209) -/

/-- Process exit status. -/
inductive ExitCode : Type
  | success
  | failure
deriving DecidableEq, Repr

/-- The observable outcome of one `main` run: exit status, the lines
printed to standard output, and which directory entries were tested. -/
structure MainRun : Type where
  exit_code : ExitCode
  output : List String
  files_tested : List String
deriving DecidableEq, Repr

/-- The usage line printed when no directory argument is given. -/
def usage_message : String := "usage: charls_image_tester <directory-to-test>"

/-- The `recursive_directory_iterator` loop of `main`: test each `.pgm`
entry with `check_file` and each `.ppm` entry with `check_color_file`
(both abstracted to their boolean results), print the per-file lines,
and stop with failure at the first failing file.
Returns (all files passed, output lines, files tested). -/
def run_directory (check_file_result check_color_file_result : String → Bool) :
    List String → Bool × List String × List String
  | [] => (true, [], [])
  | entry :: rest =>
    let monochrome_anymap := fsExtension entry = ".pgm"
    let color_anymap := fsExtension entry = ".ppm"
    if monochrome_anymap ∨ color_anymap then
      let result :=
        if monochrome_anymap then check_file_result entry
        else check_color_file_result entry
      let header := "Checking file: " ++ entry
      let status := " Status: " ++ (if result then "Passed" else "Failed")
      if result then
        let t := run_directory check_file_result check_color_file_result rest
        (t.1, header :: status :: t.2.1, entry :: t.2.2)
      else (false, [header, status], [entry])
    else run_directory check_file_result check_color_file_result rest

/-- `main` (main.cpp lines 184-209): with fewer than one positional
argument (`argc < 2`) print the usage line and exit with failure before
touching the filesystem; otherwise walk the directory entries. -/
def main_program (argv : List String) (entries : List String)
    (check_file_result check_color_file_result : String → Bool) : MainRun :=
  if argv.length < 2 then
    { exit_code := ExitCode.failure
      output := [usage_message]
      files_tested := [] }
  else
    let t := run_directory check_file_result check_color_file_result entries
    { exit_code := if t.1 then ExitCode.success else ExitCode.failure
      output := t.2.1
      files_tested := t.2.2 }

/-! ## Lemmas: the uint16 view -/

theorem length_toSamples16 : ∀ (b : List Nat), (toSamples16 b).length = b.length / 2
  | [] => rfl
  | [_] => by simp [toSamples16]
  | _ :: _ :: rest => by
    have ih := length_toSamples16 rest
    simp only [toSamples16, List.length_cons, ih]
    omega

theorem length_fromSamples16 : ∀ (S : List (Nat × Nat)),
    (fromSamples16 S).length = 2 * S.length
  | [] => rfl
  | _ :: rest => by
    have ih := length_fromSamples16 rest
    simp only [fromSamples16, List.length_cons, ih]
    omega

theorem toSamples16_fromSamples16 : ∀ (S : List (Nat × Nat)),
    toSamples16 (fromSamples16 S) = S
  | [] => rfl
  | p :: rest => by
    have ih := toSamples16_fromSamples16 rest
    simp only [fromSamples16, toSamples16, ih]

theorem fromSamples16_toSamples16 : ∀ (b : List Nat), b.length % 2 = 0 →
    fromSamples16 (toSamples16 b) = b
  | [], _ => rfl
  | [_], h => by simp at h
  | x :: y :: rest, h => by
    have ih := fromSamples16_toSamples16 rest (by simp at h; omega)
    simp only [toSamples16, fromSamples16, ih]

theorem getElem?_toSamples16 : ∀ (b : List Nat) (i : Nat),
    (toSamples16 b)[i]? =
      match b[2 * i]?, b[2 * i + 1]? with
      | some x, some y => some (x, y)
      | _, _ => none
  | [], i => by simp [toSamples16]
  | [x], i => by
    cases i <;> simp [toSamples16]
  | x :: y :: rest, 0 => by simp [toSamples16]
  | x :: y :: rest, i + 1 => by
    have ih := getElem?_toSamples16 rest i
    have h2 : 2 * (i + 1) = 2 * i + 1 + 1 := by omega
    simp only [toSamples16, h2, List.getElem?_cons_succ, ih]

theorem fromSamples16_drop_take : ∀ (S : List (Nat × Nat)) (i : Nat),
    ((fromSamples16 S).drop (2 * i)).take 2 =
      match S[i]? with
      | some p => [p.1, p.2]
      | none => []
  | [], i => by simp [fromSamples16]
  | p :: rest, 0 => by simp [fromSamples16]
  | p :: rest, i + 1 => by
    have ih := fromSamples16_drop_take rest i
    have h2 : 2 * (i + 1) = 2 * i + 1 + 1 := by omega
    simp only [fromSamples16, h2, List.drop_succ_cons, List.getElem?_cons_succ, ih]

theorem drop_take_one {α : Type} : ∀ (l : List α) (n : Nat),
    (l.drop n).take 1 = (l[n]?).toList
  | [], n => by simp
  | a :: as, 0 => by simp
  | a :: as, n + 1 => by
    have ih := drop_take_one as n
    simp only [List.drop_succ_cons, List.getElem?_cons_succ, ih]

/-! ## Lemmas: the `triplet_to_planar` write loop -/

theorem length_planar_step {α : Type} (src : List α) (dflt : α) (spp : Nat)
    (wb : List α) (i : Nat) : (planar_step src dflt spp wb i).length = wb.length := by
  simp [planar_step]

theorem length_planar_foldl {α : Type} (src : List α) (dflt : α) (spp : Nat) :
    ∀ (l : List Nat) (wb : List α),
      (l.foldl (planar_step src dflt spp) wb).length = wb.length
  | [], _ => rfl
  | i :: is, wb => by
    rw [List.foldl_cons, length_planar_foldl src dflt spp is, length_planar_step]

theorem length_planar_pass {α : Type} (src : List α) (dflt : α) (spp : Nat)
    (wb : List α) : (planar_pass src dflt spp wb).length = wb.length :=
  length_planar_foldl src dflt spp (List.range spp) wb

theorem planar_foldl_getElem? {α : Type} (src : List α) (dflt : α) (spp : Nat)
    (hsrc : src.length = 3 * spp) :
    ∀ (n : Nat), n ≤ spp → ∀ (wb : List α), wb.length = 3 * spp → ∀ (d : Nat),
      ((List.range n).foldl (planar_step src dflt spp) wb)[d]? =
        if d < 3 * spp ∧ d % spp < n then src[(d % spp) * 3 + d / spp]?
        else wb[d]? := by
  intro n
  induction n with
  | zero => intro _ wb _ d; simp
  | succ n ih =>
    intro hn wb hwb d
    have hnspp : n < spp := hn
    have hspp : 0 < spp := by omega
    rw [List.range_succ, List.foldl_append, List.foldl_cons, List.foldl_nil]
    set W := (List.range n).foldl (planar_step src dflt spp) wb with hW
    have hWlen : W.length = 3 * spp := by
      rw [hW, length_planar_foldl src dflt spp, hwb]
    have hIH : ∀ (d : Nat), W[d]? =
        if d < 3 * spp ∧ d % spp < n then src[(d % spp) * 3 + d / spp]?
        else wb[d]? := ih (by omega) wb hwb
    -- the three destination indices of this iteration
    have hv : ∀ k : Nat, k < 3 →
        (some (src.getD (n * 3 + k) dflt) : Option α) = src[n * 3 + k]? := by
      intro k hk
      have hlt : n * 3 + k < src.length := by rw [hsrc]; omega
      rw [List.getD_eq_getElem?_getD, List.getElem?_eq_getElem hlt]
      rfl
    unfold planar_step
    by_cases hd0 : d = n
    · subst hd0
      rw [List.getElem?_set_ne (by omega), List.getElem?_set_ne (by omega),
        List.getElem?_set_eq_of_lt _ (by rw [hWlen]; omega)]
      have hmod : d % spp = d := Nat.mod_eq_of_lt hnspp
      have hdiv : d / spp = 0 := Nat.div_eq_of_lt hnspp
      rw [if_pos ⟨by omega, by omega⟩, hmod, hdiv]
      exact hv 0 (by omega)
    · by_cases hd1 : d = n + 1 * spp
      · subst hd1
        rw [List.getElem?_set_ne (by omega),
          List.getElem?_set_eq_of_lt _ (by rw [List.length_set, hWlen]; omega)]
        have hmod : (n + 1 * spp) % spp = n := by
          rw [Nat.add_mul_mod_self_right, Nat.mod_eq_of_lt hnspp]
        have hdiv : (n + 1 * spp) / spp = 1 := by
          rw [Nat.add_mul_div_right _ _ hspp, Nat.div_eq_of_lt hnspp]
        rw [if_pos ⟨by omega, by omega⟩, hmod, hdiv]
        exact hv 1 (by omega)
      · by_cases hd2 : d = n + 2 * spp
        · subst hd2
          rw [List.getElem?_set_eq_of_lt _
            (by rw [List.length_set, List.length_set, hWlen]; omega)]
          have hmod : (n + 2 * spp) % spp = n := by
            rw [Nat.add_mul_mod_self_right, Nat.mod_eq_of_lt hnspp]
          have hdiv : (n + 2 * spp) / spp = 2 := by
            rw [Nat.add_mul_div_right _ _ hspp, Nat.div_eq_of_lt hnspp]
          rw [if_pos ⟨by omega, by omega⟩, hmod, hdiv]
          exact hv 2 (by omega)
        · rw [List.getElem?_set_ne (by omega), List.getElem?_set_ne (by omega),
            List.getElem?_set_ne (by omega), hIH d]
          -- d is none of this iteration's targets, so the condition at n+1
          -- degenerates to the condition at n
          have hcond : (d < 3 * spp ∧ d % spp < n + 1) ↔ (d < 3 * spp ∧ d % spp < n) := by
            constructor
            · rintro ⟨h1, h2⟩
              refine ⟨h1, ?_⟩
              by_contra hge
              have heq : d % spp = n := by omega
              have hdm := Nat.div_add_mod d spp
              rw [heq] at hdm
              have hq3 : d / spp < 3 :=
                (Nat.div_lt_iff_lt_mul hspp).mpr (by omega)
              generalize hq : d / spp = q at hdm hq3
              have hq012 : q = 0 ∨ q = 1 ∨ q = 2 := by omega
              rcases hq012 with hq' | hq' | hq' <;> subst hq' <;> omega
            · rintro ⟨h1, h2⟩; exact ⟨h1, by omega⟩
          by_cases hc : d < 3 * spp ∧ d % spp < n
          · rw [if_pos (hcond.mpr hc), if_pos hc]
          · rw [if_neg (fun h => hc (hcond.mp h)), if_neg hc]

theorem planar_pass_getElem? {α : Type} (src : List α) (dflt : α) (spp : Nat)
    (wb : List α) (hsrc : src.length = 3 * spp) (hwb : wb.length = 3 * spp)
    (d : Nat) :
    (planar_pass src dflt spp wb)[d]? =
      if d < 3 * spp then src[(d % spp) * 3 + d / spp]? else none := by
  rw [planar_pass, planar_foldl_getElem? src dflt spp hsrc spp le_rfl wb hwb d]
  by_cases hd : d < 3 * spp
  · have hspp : 0 < spp := by omega
    rw [if_pos ⟨hd, Nat.mod_lt _ hspp⟩, if_pos hd]
  · rw [if_neg (fun h => hd h.1), if_neg hd,
      List.getElem?_eq_none (by omega)]

theorem length_triplet_to_planar (buffer : List Nat) (w h bps : Nat)
    (h2 : 8 < bps → buffer.length % 2 = 0) :
    (triplet_to_planar buffer w h bps).length = buffer.length := by
  unfold triplet_to_planar
  by_cases hb : 8 < bps
  · simp only [if_pos hb]
    rw [length_fromSamples16, length_planar_pass, length_toSamples16,
      List.length_replicate]
    have := h2 hb
    omega
  · simp only [if_neg hb]
    rw [length_planar_pass, List.length_replicate]

theorem triplet_to_planar_getElem?_8 (buffer : List Nat) (w h bps : Nat)
    (hb : ¬8 < bps) (hlen : buffer.length = w * h * 3) (d : Nat) :
    (triplet_to_planar buffer w h bps)[d]? =
      if d < 3 * (w * h) then buffer[(d % (w * h)) * 3 + d / (w * h)]? else none := by
  unfold triplet_to_planar
  simp only [if_neg hb]
  exact planar_pass_getElem? buffer 0 (w * h) _ (by omega)
    (by rw [List.length_replicate]; omega) d

theorem triplet_to_planar_samples16 (buffer : List Nat) (w h bps : Nat)
    (hb : 8 < bps) (hlen : buffer.length = w * h * 3 * 2) (d : Nat) :
    (toSamples16 (triplet_to_planar buffer w h bps))[d]? =
      if d < 3 * (w * h) then
        (toSamples16 buffer)[(d % (w * h)) * 3 + d / (w * h)]? else none := by
  unfold triplet_to_planar
  simp only [if_pos hb]
  rw [toSamples16_fromSamples16]
  exact planar_pass_getElem? (toSamples16 buffer) (0, 0) (w * h) _
    (by rw [length_toSamples16]; omega)
    (by rw [length_toSamples16, List.length_replicate]; omega) d

theorem drop_take_two {α : Type} : ∀ (l : List α) (n : Nat),
    (l.drop n).take 2 = (l[n]?).toList ++ (l[n + 1]?).toList
  | [], n => by simp
  | a :: as, 0 => by
    have h := drop_take_one as 0
    simp only [List.drop_zero] at h
    simp [h]
  | a :: as, n + 1 => by
    have ih := drop_take_two as n
    simp only [List.drop_succ_cons, List.getElem?_cons_succ, ih]

/-- The 2-byte sample view agrees with taking two bytes from the flat
buffer, inside the addressable (paired) range. -/
theorem drop_take_two_toSamples16 (L : List Nat) (m : Nat)
    (h : 2 * m + 2 ≤ L.length) :
    (L.drop (2 * m)).take 2 =
      match (toSamples16 L)[m]? with
      | some p => [p.1, p.2]
      | none => [] := by
  have h0 : 2 * m < L.length := by omega
  have h1 : 2 * m + 1 < L.length := by omega
  rw [drop_take_two, getElem?_toSamples16,
    List.getElem?_eq_getElem h0, List.getElem?_eq_getElem h1]
  rfl

/-! ## Lemmas: the inverse regrouping -/

theorem flatten_triple_chunks {α : Type} (g : Nat → α) :
    ∀ (n : Nat),
      ((List.range n).map (fun i => [g (i * 3), g (i * 3 + 1), g (i * 3 + 2)])).flatten =
        (List.range (3 * n)).map g
  | 0 => rfl
  | n + 1 => by
    rw [List.range_succ, List.map_append, List.flatten_append,
      flatten_triple_chunks g n,
      show 3 * (n + 1) = 3 * n + 1 + 1 + 1 from by omega,
      List.range_succ, List.range_succ, List.range_succ]
    simp only [List.map_append, List.map_cons, List.map_nil, List.flatten_cons,
      List.flatten_nil, List.append_assoc, List.append_nil, List.nil_append]
    congr 2 <;> [skip; congr 2] <;> congr 1 <;> omega

theorem map_getD_range {α : Type} (l : List α) (d : α) :
    (List.range l.length).map (fun j => l.getD j d) = l := by
  apply List.ext_getElem?
  intro n
  rw [List.getElem?_map]
  by_cases hn : n < l.length
  · rw [List.getElem?_range hn, List.getElem?_eq_getElem hn]
    simp [List.getD_eq_getElem?_getD, List.getElem?_eq_getElem hn]
  · rw [List.getElem?_eq_none (by simpa using hn), List.getElem?_eq_none (by omega)]
    rfl

/-- Regrouping undoes the planar write loop at the sample level. -/
theorem planar_to_triplet_pass_planar_pass {α : Type} (src : List α) (dflt : α)
    (spp : Nat) (wb : List α) (hsrc : src.length = 3 * spp)
    (hwb : wb.length = 3 * spp) :
    planar_to_triplet_pass (planar_pass src dflt spp wb) dflt spp = src := by
  set P := planar_pass src dflt spp wb with hP
  have hPget : ∀ (d : Nat), P[d]? =
      if d < 3 * spp then src[(d % spp) * 3 + d / spp]? else none :=
    planar_pass_getElem? src dflt spp wb hsrc hwb
  have hchunk : ∀ i ∈ List.range spp,
      regroup_pixel P dflt spp i =
        [src.getD (i * 3) dflt, src.getD (i * 3 + 1) dflt, src.getD (i * 3 + 2) dflt] := by
    intro i hi
    have hispp : i < spp := List.mem_range.mp hi
    have hspp : 0 < spp := by omega
    have hone : ∀ k : Nat, k < 3 →
        P.getD (i + k * spp) dflt = src.getD (i * 3 + k) dflt := by
      intro k hk
      have hbound : i + k * spp < 3 * spp := by
        have : k * spp ≤ 2 * spp := Nat.mul_le_mul_right spp (by omega)
        omega
      rw [List.getD_eq_getElem?_getD, hPget, if_pos hbound,
        Nat.add_mul_mod_self_right, Nat.mod_eq_of_lt hispp,
        Nat.add_mul_div_right _ _ hspp, Nat.div_eq_of_lt hispp,
        List.getD_eq_getElem?_getD]
      norm_num
    have h0 : P.getD i dflt = src.getD (i * 3) dflt := by
      have := hone 0 (by omega)
      simpa using this
    unfold regroup_pixel
    rw [h0, hone 1 (by omega), hone 2 (by omega)]
  unfold planar_to_triplet_pass
  rw [List.map_congr_left hchunk,
    flatten_triple_chunks (fun j => src.getD j dflt) spp,
    show 3 * spp = src.length from by omega, map_getD_range]

/-! ## Claims -/

/-- C2: for every sample-interleaved buffer of `width*height` pixels with 3
components, the Layout Transform puts the sample at source offset `i*3+k`
(sample units) at destination offset `i + k*width*height`, with 2-byte
sample units when `bits_per_sample > 8` and 1-byte units otherwise; in
particular the 4×2 8-bit buffer `[R0 G0 B0 ... R7 G7 B7]` becomes
`[R0..R7, G0..G7, B0..B7]`. -/
theorem claim_C2_triplet_to_planar_mapping :
    (∀ (buffer : List Nat) (w h bps : Nat),
        buffer.length = w * h * 3 * (if 8 < bps then 2 else 1) →
        ∀ (i k : Nat), i < w * h → k < 3 →
          sample_at (triplet_to_planar buffer w h bps) bps (i + k * (w * h)) =
            sample_at buffer bps (i * 3 + k)) ∧
      triplet_to_planar
          [10, 20, 30, 11, 21, 31, 12, 22, 32, 13, 23, 33,
            14, 24, 34, 15, 25, 35, 16, 26, 36, 17, 27, 37] 4 2 8 =
        [10, 11, 12, 13, 14, 15, 16, 17, 20, 21, 22, 23, 24, 25, 26, 27,
          30, 31, 32, 33, 34, 35, 36, 37] := by
  constructor
  · intro buffer w h bps hlen i k hi hk
    have hik : i + k * (w * h) < 3 * (w * h) := by
      have : k * (w * h) ≤ 2 * (w * h) := Nat.mul_le_mul_right (w * h) (by omega)
      omega
    have h3ik : i * 3 + k < 3 * (w * h) := by omega
    have hspp : 0 < w * h := by omega
    by_cases hb : 8 < bps
    · rw [if_pos hb] at hlen
      have hTlen : (triplet_to_planar buffer w h bps).length = buffer.length :=
        length_triplet_to_planar buffer w h bps (fun _ => by omega)
      unfold sample_at
      rw [if_pos hb, if_pos hb,
        drop_take_two_toSamples16 _ _ (by rw [hTlen]; omega),
        drop_take_two_toSamples16 _ _ (by omega),
        triplet_to_planar_samples16 buffer w h bps hb (by omega) (i + k * (w * h)),
        if_pos hik, Nat.add_mul_mod_self_right, Nat.mod_eq_of_lt hi,
        Nat.add_mul_div_right _ _ hspp, Nat.div_eq_of_lt hi]
      norm_num
    · rw [if_neg hb] at hlen
      unfold sample_at
      rw [if_neg hb, if_neg hb, drop_take_one, drop_take_one,
        triplet_to_planar_getElem?_8 buffer w h bps hb (by omega) (i + k * (w * h)),
        if_pos hik, Nat.add_mul_mod_self_right, Nat.mod_eq_of_lt hi,
        Nat.add_mul_div_right _ _ hspp, Nat.div_eq_of_lt hi]
      norm_num
  · decide

/-- Witness for C2: a concrete 1×2, 8-bit, 3-component buffer, pixel `i = 0`,
component `k = 1`. -/
theorem claim_C2_witness :
    ([5, 6, 7, 8, 9, 10] : List Nat).length = 1 * 2 * 3 * (if 8 < 8 then 2 else 1) ∧
      0 < 1 * 2 ∧ 1 < 3 ∧
      sample_at (triplet_to_planar [5, 6, 7, 8, 9, 10] 1 2 8) 8 (0 + 1 * (1 * 2)) =
        sample_at [5, 6, 7, 8, 9, 10] 8 (0 * 3 + 1) :=
  ⟨by decide, by decide, by decide,
    claim_C2_triplet_to_planar_mapping.1 [5, 6, 7, 8, 9, 10] 1 2 8 (by decide)
      0 1 (by decide) (by decide)⟩

/-- C3: on valid 3-component buffers (length `width*height*3*bytes`, bit
depth in {8, 16}) the Layout Transform followed by the inverse regrouping
reproduces the original buffer, and the transform preserves the buffer
length. -/
theorem claim_C3_roundtrip (buffer : List Nat) (w h bps : Nat)
    (hbps : bps = 8 ∨ bps = 16)
    (hlen : buffer.length = w * h * 3 * (if 8 < bps then 2 else 1)) :
    planar_to_triplet (triplet_to_planar buffer w h bps) w h bps = buffer ∧
      (triplet_to_planar buffer w h bps).length = buffer.length := by
  rcases hbps with hbps | hbps
  all_goals constructor
  · -- bps = 8: byte samples
    subst hbps
    rw [if_neg (by omega)] at hlen
    unfold triplet_to_planar planar_to_triplet
    simp only [if_neg (show ¬8 < 8 from by omega)]
    exact planar_to_triplet_pass_planar_pass buffer 0 (w * h) _ (by omega)
      (by rw [List.length_replicate]; omega)
  · subst hbps
    exact length_triplet_to_planar buffer w h 8 (fun hc => absurd hc (by omega))
  · -- bps = 16: uint16 samples
    subst hbps
    rw [if_pos (by omega)] at hlen
    unfold triplet_to_planar planar_to_triplet
    simp only [if_pos (show 8 < 16 from by omega)]
    rw [toSamples16_fromSamples16,
      planar_to_triplet_pass_planar_pass (toSamples16 buffer) (0, 0) (w * h) _
        (by rw [length_toSamples16]; omega)
        (by rw [length_toSamples16, List.length_replicate]; omega),
      fromSamples16_toSamples16 buffer (by omega)]
  · subst hbps
    rw [if_pos (by omega)] at hlen
    exact length_triplet_to_planar buffer w h 16 (fun _ => by omega)

/-- Witness for C3: a concrete 1×1, 16-bit, 3-component buffer. -/
theorem claim_C3_witness :
    (16 = 8 ∨ 16 = 16) ∧
      ([1, 2, 3, 4, 5, 6] : List Nat).length = 1 * 1 * 3 * (if 8 < 16 then 2 else 1) ∧
      (planar_to_triplet (triplet_to_planar [1, 2, 3, 4, 5, 6] 1 1 16) 1 1 16 =
          [1, 2, 3, 4, 5, 6] ∧
        (triplet_to_planar [1, 2, 3, 4, 5, 6] 1 1 16).length =
          ([1, 2, 3, 4, 5, 6] : List Nat).length) :=
  ⟨Or.inr rfl, by decide,
    claim_C3_roundtrip [1, 2, 3, 4, 5, 6] 1 1 16 (Or.inr rfl) (by decide)⟩

/-- A concrete codec that transports buffers unchanged, for evaluating the
embedding on closed inputs. -/
def idCodec : Codec where
  encode := fun _ _ buffer => buffer
  decode := fun b => b
  near_lossless := fun _ => 0

/-- A concrete codec whose mode-`line` bitstream decodes to the wrong size,
so that mode `none` passes and mode `line` fails. -/
def modeCodec : Codec where
  encode := fun _ mode _ => if mode = InterleaveMode.line then [1] else []
  decode := fun b => b
  near_lossless := fun _ => 0

/-- C1 counterexample: for the 2×1, 8-bit, 3-component image with buffer
`[1,2,3,4,5,6]` tested in mode `none`, the ground-truth buffer handed to the
validator is the planar-transformed buffer `[1,4,2,5,3,6]`, not the buffer
as loaded from the file. -/
theorem claim_C1_counterexample :
    (check_file idCodec "t.ppm"
        { width := 2, height := 1, bits_per_sample := 8, component_count := 3,
          image_data := [1, 2, 3, 4, 5, 6] }
        InterleaveMode.none).ground_truth ≠ [1, 2, 3, 4, 5, 6] := by decide

/-- C1 (amended): the ground truth handed to the Round-Trip Validator is the
loaded reference buffer — the planar-transformed buffer when the mode is
`none` and the component count is 3 (the same buffer the encoder consumed),
and the buffer as loaded from the file in every other case. -/
theorem claim_C1_amended (codec : Codec) (name : String) (f : AnymapFile)
    (mode : InterleaveMode) :
    (check_file codec name f mode).ground_truth =
      if mode = InterleaveMode.none ∧ f.component_count = 3 then
        triplet_to_planar f.image_data f.width f.height f.bits_per_sample
      else f.image_data := by
  unfold check_file read_anymap_reference_file
  by_cases hc : mode = InterleaveMode.none ∧ f.component_count = 3
  · rw [if_pos hc, if_pos hc]
  · rw [if_neg hc, if_neg hc]

/-- `test_by_decoding` unfolded to its decision tree. -/
theorem test_by_decoding_eq (codec : Codec) (encoded original : List Nat) :
    test_by_decoding codec encoded original =
      if (codec.decode encoded).length ≠ original.length then
        Outcome.failed FailureReason.size_mismatch
      else if codec.near_lossless encoded = 0 then
        if compare_bytes (codec.decode encoded) original then Outcome.passed
        else Outcome.failed FailureReason.value_mismatch
      else Outcome.passed := rfl

/-- C4: whenever the decoded size differs from the original size the
validator fails with the size-mismatch reason, whatever the byte values and
the near-lossless header say. -/
theorem claim_C4_size_mismatch (codec : Codec) (encoded original : List Nat)
    (h : (codec.decode encoded).length ≠ original.length) :
    test_by_decoding codec encoded original =
      Outcome.failed FailureReason.size_mismatch := by
  rw [test_by_decoding_eq, if_pos h]

/-- Witness for C4: a 1-byte decode against an empty original. -/
theorem claim_C4_witness :
    (idCodec.decode [1]).length ≠ ([] : List Nat).length ∧
      test_by_decoding idCodec [1] [] =
        Outcome.failed FailureReason.size_mismatch :=
  ⟨by decide, claim_C4_size_mismatch idCodec [1] [] (by decide)⟩

theorem compare_bytes_eq : ∀ (d o : List Nat), d.length = o.length →
    (compare_bytes d o = true ↔ d = o)
  | [], [], _ => by simp [compare_bytes]
  | [], _ :: _, h => by simp at h
  | _ :: _, [], h => by simp at h
  | d :: ds, o :: os, h => by
    have ih := compare_bytes_eq ds os (by simpa using h)
    by_cases hdo : d = o
    · subst hdo
      simpa [compare_bytes] using ih
    · simp [compare_bytes, hdo]

/-- C5: with matching sizes, a lossless stream (near-lossless field 0)
passes iff the decoded bytes equal the reference bytes, any mismatch
failing with the value-mismatch reason; a near-lossless stream passes
regardless of the byte values. -/
theorem claim_C5_lossless_policy (codec : Codec) (encoded original : List Nat)
    (hsize : (codec.decode encoded).length = original.length) :
    (codec.near_lossless encoded = 0 →
      (test_by_decoding codec encoded original = Outcome.passed ↔
          codec.decode encoded = original) ∧
        (codec.decode encoded ≠ original →
          test_by_decoding codec encoded original =
            Outcome.failed FailureReason.value_mismatch)) ∧
      (codec.near_lossless encoded ≠ 0 →
        test_by_decoding codec encoded original = Outcome.passed) := by
  have hs : ¬(codec.decode encoded).length ≠ original.length :=
    not_not_intro hsize
  constructor
  · intro hnear
    have hcmp := compare_bytes_eq (codec.decode encoded) original hsize
    constructor
    · rw [test_by_decoding_eq, if_neg hs, if_pos hnear]
      by_cases hb : compare_bytes (codec.decode encoded) original = true
      · rw [if_pos hb]
        exact iff_of_true rfl (hcmp.mp hb)
      · rw [if_neg (by simp only [Bool.not_eq_true] at hb; simp [hb])]
        constructor
        · intro hcontr; exact absurd hcontr (by simp)
        · intro heq; exact absurd (hcmp.mpr heq) hb
    · intro hne
      have hb : ¬compare_bytes (codec.decode encoded) original = true :=
        fun hb => hne (hcmp.mp hb)
      rw [test_by_decoding_eq, if_neg hs, if_pos hnear, if_neg (by simpa using hb)]
  · intro hnear
    rw [test_by_decoding_eq, if_neg hs, if_neg hnear]

/-- Witness for C5: equal-size decode, lossless stream, equal bytes. -/
theorem claim_C5_witness :
    (idCodec.decode [7]).length = ([7] : List Nat).length ∧
      ((idCodec.near_lossless [7] = 0 →
        (test_by_decoding idCodec [7] [7] = Outcome.passed ↔
            idCodec.decode [7] = [7]) ∧
          (idCodec.decode [7] ≠ [7] →
            test_by_decoding idCodec [7] [7] =
              Outcome.failed FailureReason.value_mismatch)) ∧
        (idCodec.near_lossless [7] ≠ 0 →
          test_by_decoding idCodec [7] [7] = Outcome.passed)) :=
  ⟨rfl, claim_C5_lossless_policy idCodec [7] [7] rfl⟩

/-- C6: `check_color_file` attempts the modes in the fixed order `none`,
`line`, `sample` and stops at the first failure: if `none` fails only
`[none]` was attempted; if `none` passes and `line` fails only
`[none, line]` was attempted (so `sample` is never run); otherwise all
three ran and the result is mode `sample`'s. -/
theorem claim_C6_short_circuit (codec : Codec) (name : String) (f : AnymapFile) :
    ((check_file codec name f InterleaveMode.none).result = false →
        check_color_file codec name f = (false, [InterleaveMode.none])) ∧
      ((check_file codec name f InterleaveMode.none).result = true →
        (check_file codec name f InterleaveMode.line).result = false →
          check_color_file codec name f =
            (false, [InterleaveMode.none, InterleaveMode.line])) ∧
      ((check_file codec name f InterleaveMode.none).result = true →
        (check_file codec name f InterleaveMode.line).result = true →
          check_color_file codec name f =
            ((check_file codec name f InterleaveMode.sample).result,
              [InterleaveMode.none, InterleaveMode.line,
                InterleaveMode.sample])) := by
  refine ⟨fun h1 => ?_, fun h1 h2 => ?_, fun h1 h2 => ?_⟩
  · simp [check_color_file, h1]
  · simp [check_color_file, h1, h2]
  · simp [check_color_file, h1, h2]

/-- Witness for C6: with `modeCodec` on an empty 3-component image, mode
`none` passes, mode `line` fails, and only `[none, line]` is attempted. -/
theorem claim_C6_witness :
    (check_file modeCodec "t.ppm"
        { width := 0, height := 0, bits_per_sample := 8, component_count := 3,
          image_data := [] } InterleaveMode.none).result = true ∧
      (check_file modeCodec "t.ppm"
          { width := 0, height := 0, bits_per_sample := 8, component_count := 3,
            image_data := [] } InterleaveMode.line).result = false ∧
      check_color_file modeCodec "t.ppm"
          { width := 0, height := 0, bits_per_sample := 8, component_count := 3,
            image_data := [] } =
        (false, [InterleaveMode.none, InterleaveMode.line]) :=
  ⟨by decide, by decide,
    (claim_C6_short_circuit modeCodec "t.ppm"
        { width := 0, height := 0, bits_per_sample := 8, component_count := 3,
          image_data := [] }).2.1 (by decide) (by decide)⟩

/-- C7: the Layout Transform is applied by the loader iff the requested
mode is `none` and the component count is 3; in every other case — and in
particular for every single-component image in any mode — the loaded file
is returned unchanged. -/
theorem claim_C7_transform_iff (f : AnymapFile) (mode : InterleaveMode) :
    (mode = InterleaveMode.none ∧ f.component_count = 3 →
        (read_anymap_reference_file f mode).image_data =
          triplet_to_planar f.image_data f.width f.height f.bits_per_sample) ∧
      (¬(mode = InterleaveMode.none ∧ f.component_count = 3) →
        read_anymap_reference_file f mode = f) ∧
      (f.component_count = 1 → read_anymap_reference_file f mode = f) := by
  refine ⟨fun hc => ?_, fun hc => ?_, fun hc => ?_⟩
  · rw [read_anymap_reference_file, if_pos hc]
  · rw [read_anymap_reference_file, if_neg hc]
  · rw [read_anymap_reference_file, if_neg (by rw [hc]; rintro ⟨-, h⟩; omega)]

/-- Witness for C7: a 1×1 3-component image in mode `none` (transformed)
and a 1×1 grayscale image in mode `sample` (untouched). -/
theorem claim_C7_witness :
    (InterleaveMode.none = InterleaveMode.none ∧
        (⟨1, 1, 8, 3, [1, 2, 3]⟩ : AnymapFile).component_count = 3) ∧
      (read_anymap_reference_file ⟨1, 1, 8, 3, [1, 2, 3]⟩
          InterleaveMode.none).image_data =
        triplet_to_planar [1, 2, 3] 1 1 8 ∧
      ((⟨1, 1, 8, 1, [9]⟩ : AnymapFile).component_count = 1 ∧
        read_anymap_reference_file ⟨1, 1, 8, 1, [9]⟩ InterleaveMode.sample =
          ⟨1, 1, 8, 1, [9]⟩) :=
  ⟨⟨rfl, rfl⟩,
    (claim_C7_transform_iff ⟨1, 1, 8, 3, [1, 2, 3]⟩ InterleaveMode.none).1
      ⟨rfl, rfl⟩,
    rfl,
    (claim_C7_transform_iff ⟨1, 1, 8, 1, [9]⟩ InterleaveMode.sample).2.2 rfl⟩

/-- Structure eta: rebuilding a string from its characters is the identity. -/
theorem string_mk_data (s : String) : String.mk s.data = s := rfl

/-- A filename whose tail (everything after the first character) has no dot
splits as itself with an empty extension. -/
theorem split_extension_no_dot (c : Char) (rest : List Char) (h : '.' ∉ rest) :
    split_extension (c :: rest) = (c :: rest, []) := by
  unfold split_extension
  split_ifs with h1
  · rfl
  · simp [h]

/-- C8 counterexample: for the source file `test.x.ppm` (stem `test.x`) in
mode `none`, the emitted filename is `test.jls`, not
`<source-stem>-<mode>.jls = test.x-none.jls`: `replace_extension` strips
the name at the last dot of the already-suffixed stem. -/
theorem claim_C8_counterexample :
    generate_output_filename "test.x.ppm" InterleaveMode.none ≠
      fsStem "test.x.ppm" ++ "-" ++
        interleave_mode_to_string InterleaveMode.none ++ ".jls" := by decide

/-- C8 (amended): the bitstream file is named
`<source-stem>-<mode>.jls` with `<mode>` ∈ {`none`, `line`, `sample`}
whenever the source stem has no dot after its first character (in
particular for every dot-free base name); a stem with an interior dot is
additionally truncated at its last dot by the final `replace_extension`.
The stream is written with `ofstream::trunc`, overwriting any existing
file of that name. -/
theorem claim_C8_output_filename (source : String) (mode : InterleaveMode)
    (h : '.' ∉ (fsStem source).toList.drop 1) :
    generate_output_filename source mode =
      fsStem source ++ "-" ++ interleave_mode_to_string mode ++ ".jls" := by
  have hms : '.' ∉ (interleave_mode_to_string mode).toList := by
    cases mode <;> decide
  have htl : (fsStem source ++ "-" ++ interleave_mode_to_string mode).toList =
      (fsStem source).toList ++ '-' :: (interleave_mode_to_string mode).toList := by
    show (fsStem source ++ "-" ++ interleave_mode_to_string mode).data = _
    rw [String.data_append, String.data_append, List.append_assoc]
    rfl
  have hsplit : split_extension
      ((fsStem source ++ "-" ++ interleave_mode_to_string mode).toList) =
      ((fsStem source ++ "-" ++ interleave_mode_to_string mode).toList, []) := by
    rw [htl]
    cases hs : (fsStem source).toList with
    | nil =>
      simpa using split_extension_no_dot '-'
        (interleave_mode_to_string mode).toList hms
    | cons c cs =>
      have hcs : '.' ∉ cs := by
        rw [hs] at h
        simpa using h
      have hrest : '.' ∉ cs ++ '-' :: (interleave_mode_to_string mode).toList := by
        intro hmem
        rcases List.mem_append.mp hmem with hmem | hmem
        · exact hcs hmem
        · rcases List.mem_cons.mp hmem with hmem | hmem
          · exact absurd hmem (by decide)
          · exact hms hmem
      simpa using split_extension_no_dot c
        (cs ++ '-' :: (interleave_mode_to_string mode).toList) hrest
  unfold generate_output_filename replace_extension
  dsimp only
  rw [hsplit]
  rfl

/-- Witness for C8: a dot-free stem, mode `sample`. -/
theorem claim_C8_witness :
    '.' ∉ (fsStem "test.ppm").toList.drop 1 ∧
      generate_output_filename "test.ppm" InterleaveMode.sample =
        fsStem "test.ppm" ++ "-" ++
          interleave_mode_to_string InterleaveMode.sample ++ ".jls" :=
  ⟨by decide, claim_C8_output_filename "test.ppm" InterleaveMode.sample (by decide)⟩

/-- C9: invoked with fewer than one positional argument (`argc < 2`), the
program prints the usage line to standard output and exits with a failing
status, with no directory entry visited and no file tested. -/
theorem claim_C9_usage (argv : List String) (entries : List String)
    (check_file_result check_color_file_result : String → Bool)
    (h : argv.length < 2) :
    main_program argv entries check_file_result check_color_file_result =
      { exit_code := ExitCode.failure, output := [usage_message],
        files_tested := [] } := by
  unfold main_program
  rw [if_pos h]

/-- Witness for C9: program name only, with a non-empty directory that
would otherwise be tested. -/
theorem claim_C9_witness :
    ([("charls_image_tester" : String)].length < 2) ∧
      main_program ["charls_image_tester"] ["a.ppm", "b.pgm"]
          (fun _ => true) (fun _ => true) =
        { exit_code := ExitCode.failure, output := [usage_message],
          files_tested := [] } :=
  ⟨by decide,
    claim_C9_usage ["charls_image_tester"] ["a.ppm", "b.pgm"]
      (fun _ => true) (fun _ => true) (by decide)⟩

/-- C10: the mode-to-string mapping sends the three valid interleave modes
to their non-empty names, so the post-switch fallback (assert + empty
string) is unreachable for valid enumeration values. -/
theorem claim_C10_mode_to_string :
    interleave_mode_to_string InterleaveMode.none = "none" ∧
      interleave_mode_to_string InterleaveMode.line = "line" ∧
      interleave_mode_to_string InterleaveMode.sample = "sample" ∧
      ∀ mode : InterleaveMode, interleave_mode_to_string mode ≠ "" := by
  refine ⟨rfl, rfl, rfl, ?_⟩
  intro mode
  cases mode <;> decide

end CharlsImageTest
